import Mathlib

/-!
Shallow embedding of the CryptoScope frontend core (js/api.js, js/state.js,
js/ui.js, js/app.js): the JavaScript value model, the remote-data gateway,
the observable store, pagination, the detail-range cache and the dashboard
renderer, together with theorems checking the specification's claims.
-/

namespace CryptoScope

/-- Model of a JavaScript value as it occurs in the frontend: JSON data plus
`undefined`.  Numbers are rationals; `NaN` and the infinities are not values
of the model but appear as the `none` result of numeric coercion. -/
inductive JVal where
  | null
  | undefined
  | bool (b : Bool)
  | num (q : ℚ)
  | str (s : String)
  | arr (elems : List JVal)
  | obj (fields : List (String × JVal))

namespace JVal

/-- JS truthiness, `Boolean(v)`; arrays and objects are always truthy. -/
def truthy : JVal → Bool
  | .null => false
  | .undefined => false
  | .bool b => b
  | .num q => decide (q ≠ 0)
  | .str s => decide (s ≠ "")
  | .arr _ => true
  | .obj _ => true

/-- JS loose null test `v == null`: true exactly for `null` and `undefined`. -/
def nullish : JVal → Bool
  | .null => true
  | .undefined => true
  | _ => false

/-- The `Array.isArray` test. -/
def isArr : JVal → Bool
  | .arr _ => true
  | _ => false

/-- Optional-chaining property access `v?.k`; absent properties read as
`undefined`, as does property access on any non-object value. -/
def get : JVal → String → JVal
  | .obj fs, k => match fs.lookup k with
    | some v => v
    | none => .undefined
  | _, _ => .undefined

/-- The `.length` property as the gateway reads it: numeric for arrays and
strings, an explicit field (if any) for plain objects, `undefined` otherwise. -/
def jlen : JVal → JVal
  | .arr xs => .num xs.length
  | .str s => .num s.length
  | .obj fs => match fs.lookup "length" with
    | some v => v
    | none => .undefined
  | _ => .undefined

end JVal

/-- Decimal digits of the fractional part of `r / d`, produced greedily.  The
fuel bound covers every value a JS double can take, since the decimal
expansion of a double always terminates. -/
def fracDigits : ℕ → ℕ → ℕ → String
  | 0, _, _ => ""
  | _, 0, _ => ""
  | fuel + 1, r, d =>
    let r10 := r * 10
    toString (r10 / d) ++ fracDigits fuel (r10 % d) d

/-- JS `String(number)` for the rationals the model produces: integers and
terminating decimals (scientific notation is not modelled). -/
def numToString (q : ℚ) : String :=
  let sign := if q < 0 then "-" else ""
  let n := q.num.natAbs
  let d := q.den
  if d = 1 then sign ++ toString n
  else sign ++ toString (n / d) ++ "." ++ fracDigits 1200 (n % d) d

/-- ASCII decimal digit test. -/
def isDigitCh (c : Char) : Bool := decide ('0' ≤ c) && decide (c ≤ '9')

/-- Accumulate a digit string into a natural number; `none` on a non-digit. -/
def digitsToNat : List Char → ℕ → Option ℕ
  | [], acc => some acc
  | c :: cs, acc =>
    if isDigitCh c then digitsToNat cs (acc * 10 + (c.toNat - '0'.toNat)) else none

/-- Mantissa of a decimal literal: `digits`, `digits.digits`, `.digits` or
`digits.`, with at least one digit overall. -/
def parseMantissa (cs : List Char) : Option ℚ :=
  let ip := cs.takeWhile isDigitCh
  let rest := cs.dropWhile isDigitCh
  match rest with
  | [] =>
    if ip.isEmpty then none
    else (digitsToNat ip 0).map (fun n => (n : ℚ))
  | '.' :: fp =>
    if fp.any (fun c => !isDigitCh c) then none
    else if ip.isEmpty && fp.isEmpty then none
    else
      match digitsToNat ip 0, digitsToNat fp 0 with
      | some n, some f => some ((n : ℚ) + (f : ℚ) / ((10 : ℚ) ^ fp.length))
      | _, _ => none
  | _ => none

/-- Exponent part of a decimal literal, after the `e`. -/
def parseExp : List Char → Option ℤ
  | [] => none
  | '+' :: ds => if ds.isEmpty then none else (digitsToNat ds 0).map (fun n => (n : ℤ))
  | '-' :: ds => if ds.isEmpty then none else (digitsToNat ds 0).map (fun n => -(n : ℤ))
  | ds => (digitsToNat ds 0).map (fun n => (n : ℤ))

/-- Unsigned decimal literal with optional exponent. -/
def parseDecExp (cs : List Char) : Option ℚ :=
  let mant := cs.takeWhile (fun c => !(c = 'e' || c = 'E'))
  let rest := cs.dropWhile (fun c => !(c = 'e' || c = 'E'))
  match rest with
  | [] => parseMantissa mant
  | _ :: expPart =>
    match parseMantissa mant, parseExp expPart with
    | some m, some e => some (m * (10 : ℚ) ^ e)
    | _, _ => none

/-- Signed decimal literal. -/
def parseSigned : List Char → Option ℚ
  | '+' :: rest => parseDecExp rest
  | '-' :: rest => (parseDecExp rest).map (fun q => -q)
  | rest => parseDecExp rest

/-- Whitespace as trimmed by JS string-to-number coercion. -/
def isWsCh (c : Char) : Bool := c = ' ' || c = '\t' || c = '\n' || c = '\r'

/-- JS `Number(string)`: a trimmed empty string is 0, otherwise a signed
decimal literal with optional exponent.  Hex and binary literals and
`Infinity` are outside the model and coerce to `none`, the model's NaN. -/
def parseNum (s : String) : Option ℚ :=
  let t := ((s.data.dropWhile isWsCh).reverse.dropWhile isWsCh).reverse
  if t.isEmpty then some 0 else parseSigned t

mutual

/-- JS `String(v)` on the model: array elements join with commas and plain
objects print as `[object Object]`. -/
def jsToString : JVal → String
  | .null => "null"
  | .undefined => "undefined"
  | .bool b => if b then "true" else "false"
  | .num q => numToString q
  | .str s => s
  | .arr xs => String.intercalate "," (joinParts xs)
  | .obj _ => "[object Object]"

/-- Elements of an array as joined by `Array.prototype.toString`: `null` and
`undefined` elements print as the empty string. -/
def joinParts : List JVal → List String
  | [] => []
  | x :: xs => (if x.nullish then "" else jsToString x) :: joinParts xs

end

/-- JS `Number(v)`, the coercion also performed by the global `isNaN`;
`none` stands for NaN. -/
def toNumber : JVal → Option ℚ
  | .null => some 0
  | .undefined => none
  | .bool b => some (if b then 1 else 0)
  | .num q => some q
  | .str s => parseNum s
  | .arr xs => parseNum (jsToString (.arr xs))
  | .obj _ => none

/-! Presentation formatters (js/ui.js, `formatPrice` … `formatUSDCompact`,
`esc`).  All of them are total Lean functions, which embeds the fact that the
JS originals cannot throw on any input of the value model. -/

/-- A `{text, cls}` pair as returned by `formatChange` and `formatSignal`. -/
structure TextCls where
  text : String
  cls : String
deriving DecidableEq

/-- Insert thousands separators into a digit string (grouping of
`toLocaleString("en-US")`). -/
def groupRev : List Char → List Char
  | a :: b :: c :: d :: rest => a :: b :: c :: ',' :: groupRev (d :: rest)
  | l => l

/-- Group the digits of a natural number with commas. -/
def groupDigits (n : ℕ) : String :=
  ⟨(groupRev (toString n).data.reverse).reverse⟩

/-- Two-digit zero-padded rendering of `n < 100`. -/
def twoDigits (n : ℕ) : String :=
  if n < 10 then "0" ++ toString n else toString n

/-- JS `n.toFixed(2)`: round to cents, half away from zero. -/
def toFixed2 (q : ℚ) : String :=
  let cents : ℕ := (|q| * 100 + 1 / 2).floor.toNat
  (if q < 0 then "-" else "") ++ toString (cents / 100) ++ "." ++ twoDigits (cents % 100)

/-- `toLocaleString("en-US", {minimumFractionDigits: 2, maximumFractionDigits: 2})`:
grouped digits with exactly two decimals. -/
def groupedFixed2 (q : ℚ) : String :=
  let cents : ℕ := (|q| * 100 + 1 / 2).floor.toNat
  (if q < 0 then "-" else "") ++ groupDigits (cents / 100) ++ "." ++ twoDigits (cents % 100)

/-- `toLocaleString("en-US", {maximumFractionDigits: 2})`: grouped digits with
up to two decimals, trailing zeros trimmed. -/
def groupedMax2 (q : ℚ) : String :=
  let cents : ℕ := (|q| * 100 + 1 / 2).floor.toNat
  let frac := cents % 100
  (if q < 0 then "-" else "") ++ groupDigits (cents / 100) ++
    (if frac = 0 then ""
     else if frac % 10 = 0 then "." ++ toString (frac / 10)
     else "." ++ twoDigits frac)

/-- Floor of the base-10 logarithm of a positive rational, by fuelled scaling. -/
def log10Up : ℚ → ℤ → ℕ → ℤ
  | _, e, 0 => e
  | q, e, fuel + 1 => if q < 10 then e else log10Up (q / 10) (e + 1) fuel

/-- Downward search used by `log10Floor` for values below 1. -/
def log10Down : ℚ → ℤ → ℕ → ℤ
  | _, e, 0 => e
  | q, e, fuel + 1 => if 1 ≤ q then e else log10Down (q * 10) (e - 1) fuel

/-- Floor of log₁₀ for a positive rational (fuel covers the double range). -/
def log10Floor (q : ℚ) : ℤ :=
  if 1 ≤ q then log10Up q 0 1300 else log10Down q 0 1300

/-- JS `n.toPrecision(6)`: six significant digits, decimal notation while the
exponent is below 6 and exponential notation from 10^6 upward. -/
def toPrecision6 (q : ℚ) : String :=
  if q = 0 then "0.00000"
  else
    let sign := if q < 0 then "-" else ""
    let m := |q|
    let e0 := log10Floor m
    let scaled : ℚ := m / (10 : ℚ) ^ (e0 - 5)
    let d0 : ℕ := (scaled + 1 / 2).floor.toNat
    let digits : ℕ := if d0 ≥ 1000000 then 100000 else d0
    let e : ℤ := if d0 ≥ 1000000 then e0 + 1 else e0
    let ds := toString digits
    if e ≥ 6 then
      sign ++ ⟨ds.data.take 1⟩ ++ "." ++ ⟨ds.data.drop 1⟩ ++ "e+" ++ toString e
    else if 0 ≤ e then
      let ipLen := (e + 1).toNat
      let fp : List Char := ds.data.drop ipLen
      sign ++ ⟨ds.data.take ipLen⟩ ++ (if fp.isEmpty then "" else "." ++ ⟨fp⟩)
    else
      sign ++ "0." ++ ⟨List.replicate (-(e + 1)).toNat '0'⟩ ++ ds

/-- ui.js `formatPrice`: placeholder for nullish/NaN input, `$0.00` at zero,
grouped two-decimal dollars from 1 upward, six significant digits below 1. -/
def formatPrice (v : JVal) : String :=
  if v.nullish || (toNumber v).isNone then "—"
  else
    let n := (toNumber v).getD 0
    if n = 0 then "$0.00"
    else if n ≥ 1 then "$" ++ groupedFixed2 n
    else "$" ++ toPrecision6 n

/-- ui.js `formatChange`: sign-prefixed two-decimal percent with a three-way
style class. -/
def formatChange (ch : JVal) : TextCls :=
  if ch.nullish || (toNumber ch).isNone then ⟨"—", ""⟩
  else
    let n := (toNumber ch).getD 0
    { text := (if n ≥ 0 then "+" else "") ++ toFixed2 n ++ "%"
      cls :=
        if n > 0 then "text-emerald-500 bg-emerald-500/10"
        else if n < 0 then "text-red-500 bg-red-500/10"
        else "text-gray-500 bg-gray-500/10" }

/-- ui.js `formatIndicatorValue`: grouped for magnitudes from 1000 upward,
plain two decimals below. -/
def formatIndicatorValue (v : JVal) : String :=
  if v.nullish || (toNumber v).isNone then "—"
  else
    let n := (toNumber v).getD 0
    if |n| ≥ 1000 then groupedMax2 n else toFixed2 n

/-- ASCII uppercase of one character (JS `toUpperCase` restricted to the
ASCII labels the backend emits). -/
def chUp (c : Char) : Char :=
  if c = 'a' then 'A' else if c = 'b' then 'B' else if c = 'c' then 'C'
  else if c = 'd' then 'D' else if c = 'e' then 'E' else if c = 'f' then 'F'
  else if c = 'g' then 'G' else if c = 'h' then 'H' else if c = 'i' then 'I'
  else if c = 'j' then 'J' else if c = 'k' then 'K' else if c = 'l' then 'L'
  else if c = 'm' then 'M' else if c = 'n' then 'N' else if c = 'o' then 'O'
  else if c = 'p' then 'P' else if c = 'q' then 'Q' else if c = 'r' then 'R'
  else if c = 's' then 'S' else if c = 't' then 'T' else if c = 'u' then 'U'
  else if c = 'v' then 'V' else if c = 'w' then 'W' else if c = 'x' then 'X'
  else if c = 'y' then 'Y' else if c = 'z' then 'Z' else c

/-- JS `s.toUpperCase()` on the model. -/
def strUpper (s : String) : String := ⟨s.data.map chUp⟩

/-- Prefix test on character lists. -/
def listPrefixB : List Char → List Char → Bool
  | [], _ => true
  | _ :: _, [] => false
  | a :: as, b :: bs => a = b && listPrefixB as bs

/-- Substring occurrence test on character lists. -/
def listSubB (needle : List Char) : List Char → Bool
  | [] => needle.isEmpty
  | c :: cs => listPrefixB needle (c :: cs) || listSubB needle cs

/-- JS `hay.includes(needle)` on the model. -/
def containsStr (needle hay : String) : Bool := listSubB needle.data hay.data

/-- JS `s.replace(pat, r)` with a plain one-character string pattern: only the
first occurrence is replaced. -/
def replaceFirstCh : List Char → Char → Char → List Char
  | [], _, _ => []
  | c :: cs, a, b => if c = a then b :: cs else c :: replaceFirstCh cs a b

/-- ui.js `formatSignal`: placeholder for falsy input, otherwise the
uppercased label (first `_` shown as a space) with a class from the
BUY/SELL/HOLD vocabulary, substring-matching BULL/BEAR. -/
def formatSignal (signalRaw : JVal) : TextCls :=
  if !signalRaw.truthy then ⟨"—", "text-gray-500 bg-gray-500/10"⟩
  else
    let s := strUpper (jsToString signalRaw)
    let cls :=
      if s = "BUY" || s = "STRONG_BUY" || containsStr "BULL" s then
        "text-emerald-500 bg-emerald-500/10"
      else if s = "SELL" || s = "STRONG_SELL" || containsStr "BEAR" s then
        "text-red-500 bg-red-500/10"
      else if s = "HOLD" || s = "NEUTRAL" then
        "text-amber-500 bg-amber-500/10"
      else "text-gray-500 bg-gray-500/10"
    ⟨⟨replaceFirstCh s.data '_' ' '⟩, cls⟩

/-- The `Intl` compact currency notation of `formatUSDCompact`'s `try` branch
(the catch branch is unreachable: these options never throw). -/
def compactUSD (q : ℚ) : String :=
  let sign := if q < 0 then "-" else ""
  let a := |q|
  if a < 1000 then sign ++ "$" ++ groupedMax2 a
  else if a < 1000000 then sign ++ "$" ++ groupedMax2 (a / 1000) ++ "K"
  else if a < 1000000000 then sign ++ "$" ++ groupedMax2 (a / 1000000) ++ "M"
  else if a < 1000000000000 then sign ++ "$" ++ groupedMax2 (a / 1000000000) ++ "B"
  else sign ++ "$" ++ groupedMax2 (a / 1000000000000) ++ "T"

/-- ui.js `formatUSDCompact`: placeholder for nullish/NaN input, compact
currency otherwise. -/
def formatUSDCompact (v : JVal) : String :=
  if v.nullish || (toNumber v).isNone then "—"
  else compactUSD ((toNumber v).getD 0)

/-- A global single-character `String.replace(/c/g, r)`. -/
def jsReplaceAllChar (s : String) (c : Char) (r : String) : String :=
  ⟨(s.data.map (fun ch => if ch = c then r.data else [ch])).flatten⟩

/-- ui.js `esc`: empty string for non-string input; otherwise `&` is escaped
first, then `<`, `>`, `"` and `'`, each globally. -/
def esc (v : JVal) : String :=
  match v with
  | .str s =>
    jsReplaceAllChar (jsReplaceAllChar (jsReplaceAllChar (jsReplaceAllChar
      (jsReplaceAllChar s '&' "&amp;") '<' "&lt;") '>' "&gt;") '"' "&quot;") '\'' "&#039;"
  | _ => ""

/-- Character-wise description of `esc` on strings: each special character is
replaced by its HTML entity, everything else passes through. -/
def escChar (c : Char) : List Char :=
  if c = '&' then "&amp;".data
  else if c = '<' then "&lt;".data
  else if c = '>' then "&gt;".data
  else if c = '"' then "&quot;".data
  else if c = '\'' then "&#039;".data
  else [c]

/-! Remote data gateway (js/api.js).  A network call is modelled by a
`FetchBehavior`: either the promise returned by `fetch` rejects (transport
failure) or it resolves with an HTTP success flag and an optional parsed JSON
body (`none` when `res.json()` would throw on a malformed body).  Gateway
operations return `Except Unit`, whose `error` is an exception escaping the
operation. -/

/-- Outcome of one `fetch` call. -/
inductive FetchBehavior where
  | reject
  | resp (ok : Bool) (body : Option JVal)

/-- api.js `getJson`: a rejected `fetch` is re-raised (the `await` is not
guarded), a non-ok status returns `null`, a body that fails to parse returns
`null`, and otherwise the parsed payload is returned. -/
def getJson : FetchBehavior → Except Unit JVal
  | .reject => .error ()
  | .resp false _ => .ok .null
  | .resp true none => .ok .null
  | .resp true (some v) => .ok v

/-- The canonical market entry produced by `mapSymbolToCoin`. -/
structure Coin where
  id : JVal
  rank : JVal
  symbol : JVal
  fullSymbol : JVal
  name : JVal
  price : Option ℚ
  change : Option ℚ
  vol : JVal
  mcap : JVal

/-- api.js `mapSymbolToCoin`: numeric fields become `none` (explicit unknown)
when nullish or when their numeric coercion is not finite; `vol`/`mcap` fall
back to `null` via `??`. -/
def mapSymbolToCoin (raw : JVal) : Coin :=
  { id := raw.get "id"
    rank := raw.get "rank"
    symbol := raw.get "name"
    fullSymbol := raw.get "symbol"
    name := raw.get "name"
    price := if (raw.get "price").nullish then none else toNumber (raw.get "price")
    change := if (raw.get "change").nullish then none else toNumber (raw.get "change")
    vol := if (raw.get "vol").nullish then .null else raw.get "vol"
    mcap := if (raw.get "mcap").nullish then .null else raw.get "mcap" }

/-- api.js `normalizeSymbolsResponse`: a bare array is its own item list with
its length as total; otherwise `payload?.items || []` and
`payload?.total ?? (items ? items.length : 0)`. -/
def normalizeSymbolsResponse (payload : JVal) : JVal × JVal :=
  let items : JVal :=
    if payload.isArr then payload
    else if (payload.get "items").truthy then payload.get "items"
    else .arr []
  let total : JVal :=
    if payload.isArr then items.jlen
    else if !(payload.get "total").nullish then payload.get "total"
    else if items.truthy then items.jlen
    else .num 0
  (items, total)

/-- The body of api.js `fetchSymbolsPage` after `getJson` resolves: a falsy
payload yields the empty result; otherwise the normalized items are mapped
through `mapSymbolToCoin` — which is a thrown `TypeError` whenever the
normalized `items` is not an array (a truthy non-array `items` field). -/
def fetchSymbolsPageOfPayload (payload : JVal) : Except Unit (List Coin × JVal) :=
  if !payload.truthy then .ok ([], .num 0)
  else
    let np := normalizeSymbolsResponse payload
    match np.1 with
    | .arr xs => .ok (xs.map mapSymbolToCoin, np.2)
    | _ => .error ()

/-- api.js `fetchSymbolsPage` (the `page`, `pageSize` and `q` arguments only
shape the request URL and are omitted from the model). -/
def fetchSymbolsPage (fb : FetchBehavior) : Except Unit (List Coin × JVal) :=
  (getJson fb).bind fetchSymbolsPageOfPayload

/-- JS `<` as used by the price-series date comparator: lexicographic when
both sides are strings, numeric coercion otherwise (false on NaN). -/
def jsLtB (a b : JVal) : Bool :=
  match a, b with
  | .str s, .str t => decide (s < t)
  | _, _ =>
    match toNumber a, toNumber b with
    | some x, some y => decide (x < y)
    | _, _ => false

/-- Plain (unguarded) property access `v.k`, as written in the date
comparator of `fetchPrices` (`a.date`, not `a?.date`): a thrown `TypeError`
on `null` or `undefined`; any other value yields the property value (with
primitives boxing to `undefined`-valued properties), exactly as optional
chaining would. -/
def getPlain (v : JVal) (k : String) : Except Unit JVal :=
  match v with
  | .null => .error ()
  | .undefined => .error ()
  | _ => .ok (v.get k)

/-- Whether a comparator invocation with `x` as either argument throws: the
plain access `x.date` raises exactly on nullish `x`. -/
def dateAccessThrows (x : JVal) : Bool :=
  match getPlain x "date" with
  | .error _ => true
  | .ok _ => false

/-- The `undefined` test used by ECMAScript `SortCompare`. -/
def isUndefined : JVal → Bool
  | .undefined => true
  | _ => false

/-- Whether `payload.sort(cmp)` throws.  ECMAScript `SortCompare` orders
`undefined` elements after everything else without invoking the user
comparator; among the remaining elements, a sort of two or more must invoke
the comparator with each of them at least once, so the sort throws exactly
when such an element makes `x.date` throw — that is, when it is `null`
(`undefined` never reaches the comparator, and a parsed JSON body cannot
contain `undefined` anyway). -/
def sortThrows (xs : List JVal) : Bool :=
  let cmped := xs.filter (fun x => !isUndefined x)
  decide (2 ≤ cmped.length) && cmped.any dateAccessThrows

/-- Ordering relation realised by `payload.sort((a, b) => a.date < b.date ? -1
: a.date > b.date ? 1 : 0)` on the throw-free path: `a` may stay before `b`
iff the comparator is non-positive.  On the non-nullish elements that reach a
throw-free comparison, the comparator's plain accesses (`getPlain`) yield the
same values as `JVal.get`. -/
def priceDateLe (a b : JVal) : Prop := jsLtB (b.get "date") (a.get "date") = false

instance : DecidableRel priceDateLe := fun a b =>
  inferInstanceAs (Decidable (_ = false))

/-- The body of api.js `fetchPrices` after `getJson` resolves: empty list for
any non-array payload; an array is `payload.sort(...)` — a thrown `TypeError`
when a compared element is nullish (`sortThrows`), otherwise the `undefined`
elements move to the end and the rest is stably sorted ascending by date. -/
def fetchPricesOfPayload (payload : JVal) : Except Unit (List JVal) :=
  match payload with
  | .arr xs =>
    if sortThrows xs then .error ()
    else .ok (List.insertionSort priceDateLe (xs.filter (fun x => !isUndefined x))
        ++ xs.filter isUndefined)
  | _ => .ok []

/-- api.js `fetchPrices`: empty list for a falsy symbol; otherwise the
resolved payload goes through `fetchPricesOfPayload`, and a transport
rejection or a comparator `TypeError` propagates to the caller. -/
def fetchPrices (fb : FetchBehavior) (symbol : String) (timeframe : Option String) :
    Except Unit (List JVal) :=
  if symbol = "" then .ok [] else (getJson fb).bind fetchPricesOfPayload

/-- api.js `fetchTechnical`: `null` for a falsy symbol, otherwise the raw
payload of `getJson`. -/
def fetchTechnical (fb : FetchBehavior) (symbol : String) : Except Unit JVal :=
  if symbol = "" then .ok .null else getJson fb

/-- api.js `fetchLstm` (the `lookback` argument only shapes the URL). -/
def fetchLstm (fb : FetchBehavior) (symbol : String) : Except Unit JVal :=
  if symbol = "" then .ok .null else getJson fb

/-- api.js `fetchSentiment` (`window` and `limit` only shape the URL). -/
def fetchSentiment (fb : FetchBehavior) (symbol : String) : Except Unit JVal :=
  if symbol = "" then .ok .null else getJson fb

/-- api.js `fetchOnchain`. -/
def fetchOnchain (fb : FetchBehavior) (symbol : String) : Except Unit JVal :=
  if symbol = "" then .ok .null else getJson fb

/-- api.js `fetchSignal`. -/
def fetchSignal (fb : FetchBehavior) (symbol : String) : Except Unit JVal :=
  if symbol = "" then .ok .null else getJson fb

/-! Observable store (js/state.js). -/

/-- The singleton state object, as a field list. -/
abbrev StoreState := List (String × JVal)

/-- Set one field of an object, preserving field order (JS property write). -/
def setKey : StoreState → String → JVal → StoreState
  | [], k, v => [(k, v)]
  | (k', v') :: rest, k, v =>
    if k' = k then (k', v) :: rest else (k', v') :: setKey rest k v

/-- `Object.assign(state, patch)`: shallow field replacement, patch fields in
order. -/
def jsAssign (base : StoreState) (patch : List (String × JVal)) : StoreState :=
  patch.foldl (fun acc p => setKey acc p.1 p.2) base

/-- Own enumerable properties of a patch value (`Object.assign` source):
object fields, or index properties for an array. -/
def patchFields : JVal → List (String × JVal)
  | .obj fs => fs
  | .arr xs => xs.enum.map (fun p => (toString p.1, p.2))
  | _ => []

/-- JS `typeof v === "object"` for the values that pass the truthiness guard
of `setState`. -/
def isObjectType : JVal → Bool
  | .obj _ => true
  | .arr _ => true
  | _ => false

/-- A store subscriber: receives `(nextState, patch, prevState)` and either
returns or throws (an `Except.error` carrying the thrown message). -/
abbrev Subscriber := StoreState → JVal → StoreState → Except String Unit

/-- state.js `setState`: guard non-object patches, apply the shallow merge,
then notify every subscriber in registration order, catching (and logging)
each failure individually.  The returned list holds one entry per subscriber:
`none` for a normal return, `some msg` for a caught failure. -/
def setState (patch : JVal) (st : StoreState) (subs : List Subscriber) :
    StoreState × List (Option String) :=
  if !patch.truthy || !isObjectType patch then (st, [])
  else
    let prev := st
    let next := jsAssign st (patchFields patch)
    (next,
      subs.map fun f =>
        match f next patch prev with
        | .ok _ => none
        | .error e => some e)

/-! Pagination controller (ui.js `getPaginationState`, `renderDashboard`'s
clamping step and the prev/next click handlers). -/

/-- The `internal.pagination` record.  `currentPage` is integral on every
reachable state (it is only ever set to 1, incremented, decremented or
clamped); `pageSize` is a plain JS number fed from the rows-per-page select. -/
structure Pagination where
  pageSize : ℚ
  currentPage : ℤ
deriving DecidableEq

/-- `Math.ceil` on the model's rationals, computably. -/
def jsCeil (q : ℚ) : ℤ := -((-q).num / ((-q).den : ℤ))

/-- The values `renderDashboard` computes around its clamping step. -/
structure ClampOut where
  pag : Pagination
  totalPages : ℤ
  total : ℚ
  pageSize : ℚ

/-- ui.js `renderDashboard` lines 300–304: `total` falls back to the page
length unless `state.totalCoins` is a number, `pageSize` falls back to 50
when falsy, `totalPages = max(1, ceil(total / pageSize))`, and `currentPage`
is clamped into `[1, totalPages]`. -/
def renderClampStep (totalCoins : JVal) (coinsLen : ℕ) (pag : Pagination) : ClampOut :=
  let total : ℚ :=
    match totalCoins with
    | .num t => t
    | _ => (coinsLen : ℚ)
  let pageSize : ℚ := if pag.pageSize = 0 then 50 else pag.pageSize
  let totalPages : ℤ := max 1 (jsCeil (total / pageSize))
  { pag := { pag with currentPage := min (max pag.currentPage 1) totalPages }
    totalPages := totalPages
    total := total
    pageSize := pageSize }

/-- The `pag-prev` click handler: fetches (and decrements) only when
`currentPage > 1`.  The boolean records whether a fetch was issued. -/
def pagPrevClick (pag : Pagination) : Pagination × Bool :=
  if pag.currentPage > 1 then ({ pag with currentPage := pag.currentPage - 1 }, true)
  else (pag, false)

/-- The `pag-next` click handler: fetches (and increments) only when
`currentPage < totalPages`, where `totalPages` is the render-time value
captured by the handler's closure. -/
def pagNextClick (totalPages : ℤ) (pag : Pagination) : Pagination × Bool :=
  if pag.currentPage < totalPages then
    ({ pag with currentPage := pag.currentPage + 1 }, true)
  else (pag, false)

/-! Application controller (js/app.js `loadCoinsPage`) and the top-cards
snapshot. -/

/-- The slice of `DashboardState` that `loadCoinsPage` touches. -/
structure AppState where
  coins : List Coin
  filteredCoins : List Coin
  totalCoins : JVal
  topCoins : List Coin

/-- app.js `loadCoinsPage`: on success the page replaces `coins`,
`filteredCoins` and `totalCoins`, and `topCoins` is additionally set to a
copy of the page exactly when the request was for page 1 and `topCoins` is
still empty; on a thrown fetch the catch block empties the list state.
The ticker side effect is pure DOM and is omitted. -/
def loadCoinsPage (page : ℤ) (fetchRes : Except Unit (List Coin × JVal))
    (st : AppState) : AppState :=
  match fetchRes with
  | .error _ => { st with coins := [], filteredCoins := [], totalCoins := .num 0 }
  | .ok (coins, total) =>
    let st1 := { st with coins := coins, filteredCoins := coins, totalCoins := total }
    if page = 1 && st1.topCoins.isEmpty then { st1 with topCoins := coins } else st1

/-- A session of page loads: each event is the requested page number together
with the outcome its fetch resolved (or rejected) with. -/
def runSession (events : List (ℤ × Except Unit (List Coin × JVal)))
    (st : AppState) : AppState :=
  events.foldl (fun s e => loadCoinsPage e.1 e.2 s) st

/-- `Number.MAX_SAFE_INTEGER`, the sort key of a missing rank. -/
def MAX_SAFE_INTEGER : ℚ := 9007199254740991

/-- Sort key of the top-cards comparator `(a.rank ?? MAX_SAFE_INTEGER) -
(b.rank ?? MAX_SAFE_INTEGER)`: the subtraction coerces the rank numerically.
A non-numeric rank gives the JS sort a NaN comparator (order unspecified);
the model maps that corner to 0. -/
def rankKey (c : Coin) : ℚ :=
  (toNumber (if c.rank.nullish then .num MAX_SAFE_INTEGER else c.rank)).getD 0

/-- The top-cards ordering: ascending rank, missing rank last. -/
def rankLe (a b : Coin) : Prop := rankKey a ≤ rankKey b

instance : DecidableRel rankLe := fun a b =>
  inferInstanceAs (Decidable (rankKey a ≤ rankKey b))

instance : IsTotal Coin rankLe := ⟨fun a b => le_total (rankKey a) (rankKey b)⟩

instance : IsTrans Coin rankLe := ⟨fun _ _ _ => le_trans⟩

/-- ui.js `renderTopCards` data selection: a copy of `topCoins` (or the
current page when the snapshot is empty) stably sorted by rank, first five
entries.  JS `Array.prototype.sort` is stable, as is insertion sort. -/
def renderTopCardsSelect (topCoins coins : List Coin) : List Coin :=
  (List.insertionSort rankLe (if topCoins.isEmpty then coins else topCoins)).take 5

/-! Detail-range cache (ui.js `loadAndRenderDetailRange`).  The cache lives in
`internal.pricesByRange`, created per detail-page session (hence per entity:
navigating to another coin reloads the page and resets it).  The oracle maps
the timeframe parameter of a request to the series the network resolves
with; the oracle abstracts a `fetchPrices` call that resolves to an array —
its rejections and thrown comparator errors are the subject of the gateway
claims. -/

/-- One range-cache session state: cache keys are uppercased range labels. -/
abbrev RangeCacheT := List (String × List JVal)

/-- Property read `cache[key]` on the range cache: `none` is `undefined`. -/
def cacheGet : RangeCacheT → String → Option (List JVal)
  | [], _ => none
  | (k, v) :: rest, key => if k = key then some v else cacheGet rest key

/-- ui.js `rangeLabelToTimeframeParam`. -/
def rangeLabelToTimeframeParam (rangeLabel : String) : Option String :=
  let label := strUpper rangeLabel
  if label = "1D" then some "1d"
  else if label = "1Y" then some "1y"
  else if label = "10Y" then some "10y"
  else none

/-- ui.js `loadAndRenderDetailRange`: look the uppercased label up in the
cache; on a miss fetch once and store, on a hit reuse the stored series.  The
boolean records whether a network call was issued.  A fetched series is
always an array, so a stored entry is never falsy and always hits. -/
def loadAndRenderDetailRange (oracle : Option String → List JVal)
    (cache : RangeCacheT) (rangeLabel : String) : RangeCacheT × List JVal × Bool :=
  let tfParam := rangeLabelToTimeframeParam rangeLabel
  let cacheKey := strUpper rangeLabel
  match cacheGet cache cacheKey with
  | some prices => (cache, prices, false)
  | none =>
    let prices := oracle tfParam
    ((cacheKey, prices) :: cache, prices, true)

/-- A sequence of range selections against one cache. -/
def runDetailRanges (oracle : Option String → List JVal) :
    List String → RangeCacheT → RangeCacheT × List (List JVal × Bool)
  | [], cache => (cache, [])
  | r :: rs, cache =>
    let s := loadAndRenderDetailRange oracle cache r
    let t := runDetailRanges oracle rs s.1
    (t.1, s.2 :: t.2)

/-! Dashboard renderer (ui.js `renderTopCards`, `buildSparklinePoints`,
`buildSparklinePath`, `renderDashboard`).  The produced DOM is modelled
structurally: one record per summary card and per table row, carrying the
displayed fields; the SVG path string is determined by the listed
coordinates.  `Math.random()` is modelled as a stream `ℕ → ℚ` consumed at
successive indices. -/

mutual

/-- JS strict equality `===` on the model.  For primitive values (the only
ones compared by the renderer) this is exact; for objects and arrays JS
compares references, which the structural test overapproximates. -/
def jbeq : JVal → JVal → Bool
  | .null, .null => true
  | .undefined, .undefined => true
  | .bool a, .bool b => a = b
  | .num a, .num b => a = b
  | .str a, .str b => a = b
  | .arr xs, .arr ys => jbeqList xs ys
  | .obj fs, .obj gs => jbeqFields fs gs
  | _, _ => false

/-- Elementwise structural equality of arrays. -/
def jbeqList : List JVal → List JVal → Bool
  | [], [] => true
  | x :: xs, y :: ys => jbeq x y && jbeqList xs ys
  | _, _ => false

/-- Fieldwise structural equality of objects. -/
def jbeqFields : List (String × JVal) → List (String × JVal) → Bool
  | [], [] => true
  | (k, v) :: fs, (k', v') :: gs => k = k' && jbeq v v' && jbeqFields fs gs
  | _, _ => false

end

/-- First truthy value of a `||` chain, with a final default. -/
def firstTruthy : List JVal → JVal → JVal
  | [], dflt => dflt
  | v :: vs, dflt => if v.truthy then v else firstTruthy vs dflt

/-- `coin.symbol || coin.name || coin.fullSymbol || "—"`. -/
def symbolDisplayOf (c : Coin) : JVal :=
  firstTruthy [c.symbol, c.name, c.fullSymbol] (.str "—")

/-- `coin.name && coin.name !== symbolDisplay ? coin.name : symbolDisplay`. -/
def nameDisplayOf (c : Coin) : JVal :=
  if c.name.truthy && !jbeq c.name (symbolDisplayOf c) then c.name else symbolDisplayOf c

/-- `coin.fullSymbol || coin.symbol || coin.name || ""` (the
`encodeURIComponent` wrapper is omitted from the display model). -/
def detailSymbolOf (c : Coin) : JVal :=
  firstTruthy [c.fullSymbol, c.symbol, c.name] (.str "")

/-- Embed the gateway's explicit-unknown numeric fields back into `JVal`. -/
def optNum : Option ℚ → JVal
  | none => .null
  | some q => .num q

/-- Displayed content of one summary card. -/
structure CardOut where
  symbolDisplay : JVal
  nameDisplay : JVal
  priceText : String
  change : TextCls
  detailSymbol : JVal
  isUp : Bool
  pathCoords : List (ℚ × ℚ)

/-- Displayed content of one market-table row. -/
structure RowOut where
  globalIndex : ℚ
  symbolDisplay : JVal
  nameDisplay : JVal
  priceText : String
  change : TextCls
  volText : JVal
  detailSymbol : JVal

/-- Displayed content of the table and its pagination footer. -/
structure TableOut where
  rows : List RowOut
  startIndex : ℚ
  endIndex : ℚ
  total : ℚ
  page : ℤ
  totalPages : ℤ
  pageSize : ℚ

/-- One full dashboard render: the summary cards plus, when the page has
coins, the table (`table = none` is the cleared-table "no results" state). -/
structure DashOut where
  cards : List CardOut
  table : Option TableOut

/-- ui.js `buildSparklinePoints`: 20 points interpolating from 100 to
`100 · (1 + change / 100)` with per-point jitter `(random − 0.5) · 4`, the
random stream consumed from `off`. -/
def buildSparklinePoints (changePercent : JVal) (rand : ℕ → ℚ) (off : ℕ) : List ℚ :=
  let base : ℚ := 100
  let trendFactor : ℚ := 1 + ((toNumber changePercent).getD 0) / 100
  let endv := base * trendFactor
  (List.range 20).map fun (i : ℕ) =>
    base + (endv - base) * ((i : ℚ) / 19) + (rand (off + i) - 1 / 2) * 4

/-- ui.js `buildSparklinePath` (width 100, height 32): normalize the points
into the viewbox; a zero span falls back to 1 via `|| 1`. -/
def buildSparklinePath : List ℚ → List (ℚ × ℚ)
  | [] => []
  | p :: ps =>
    let mn := ps.foldl min p
    let mx := ps.foldl max p
    let span := if mx - mn = 0 then 1 else mx - mn
    ((p :: ps).enum).map fun ip =>
      (((ip.1 : ℚ) / (((p :: ps).length : ℚ) - 1)) * 100,
        32 - ((ip.2 - mn) / span) * 32)

/-- One card of `renderTopCards`, with the random stream consumed at offset
`20 · j` for the `j`-th card. -/
def renderCard (rand : ℕ → ℚ) (j : ℕ) (c : Coin) : CardOut :=
  { symbolDisplay := symbolDisplayOf c
    nameDisplay := nameDisplayOf c
    priceText := formatPrice (optNum c.price)
    change := formatChange (optNum c.change)
    detailSymbol := detailSymbolOf c
    isUp := decide (0 ≤ c.change.getD 0)
    pathCoords := buildSparklinePath (buildSparklinePoints (optNum c.change) rand (20 * j)) }

/-- ui.js `renderTopCards`: the selected five coins rendered as cards. -/
def renderTopCards (st : AppState) (rand : ℕ → ℚ) : List CardOut :=
  ((renderTopCardsSelect st.topCoins st.coins).enum).map fun p => renderCard rand p.1 p.2

/-- One row of the market table. -/
def renderRow (startIndex : ℚ) (p : ℕ × Coin) : RowOut :=
  { globalIndex := startIndex + (p.1 : ℚ) + 1
    symbolDisplay := symbolDisplayOf p.2
    nameDisplay := nameDisplayOf p.2
    priceText := formatPrice (optNum p.2.price)
    change := formatChange (optNum p.2.change)
    volText := if !p.2.vol.nullish then p.2.vol else .str "—"
    detailSymbol := detailSymbolOf p.2 }

/-- The table part of a dashboard render (rows plus pagination footer),
computed from the clamped pagination. -/
def renderDashboardTable (st : AppState) (pag : Pagination) : TableOut :=
  let co := renderClampStep st.totalCoins st.filteredCoins.length pag
  let startIndex : ℚ := ((co.pag.currentPage : ℚ) - 1) * co.pageSize
  { rows := st.filteredCoins.enum.map (renderRow startIndex)
    startIndex := startIndex
    endIndex := min (startIndex + (st.filteredCoins.length : ℚ)) co.total
    total := co.total
    page := co.pag.currentPage
    totalPages := co.totalPages
    pageSize := co.pageSize }

/-- ui.js `renderDashboard` as a function from state, pagination and the
random stream to the displayed output and the (possibly clamped) pagination
state.  With no coins the table is cleared and pagination untouched. -/
def renderDashboardView (st : AppState) (pag : Pagination) (rand : ℕ → ℚ) :
    DashOut × Pagination :=
  let cards := renderTopCards st rand
  if st.filteredCoins.isEmpty then ({ cards := cards, table := none }, pag)
  else ({ cards := cards, table := some (renderDashboardTable st pag) },
    (renderClampStep st.totalCoins st.filteredCoins.length pag).pag)

/-- The DOM regions `renderDashboard` writes: the card container, the table
body and the pagination footer, plus the click listeners attached to the
freshly created nodes.  Listeners are identified by the symbol their node
navigates to. -/
structure DashboardDom where
  cards : List CardOut
  table : Option TableOut
  cardListeners : List JVal
  rowListeners : List JVal

/-- Applying a render to the DOM: `innerHTML` assignment replaces the
previous children wholesale (their listeners are discarded with them), and
the new listeners are attached to the new nodes — the result depends only on
the render output, never on the previous DOM contents. -/
def applyRenderDashboard (_dom : DashboardDom) (out : DashOut) : DashboardDom :=
  { cards := out.cards
    table := out.table
    cardListeners := out.cards.map CardOut.detailSymbol
    rowListeners := ((out.table.map fun t => t.rows.map RowOut.detailSymbol).getD []) }

/-- A card with its decorative sparkline erased. -/
def eraseCard (c : CardOut) : CardOut := { c with pathCoords := [] }

/-- A render output with every sparkline erased. -/
def eraseSpark (o : DashOut) : DashOut := { o with cards := o.cards.map eraseCard }

/-! Remaining definitions used by the verification: the payload shapes under
which `fetchSymbolsPage`'s item mapping cannot throw, the character-list view
of `esc`, and concrete data for witnesses and counterexamples. -/

/-- Payload shapes on which `fetchSymbolsPage`'s `items.map` cannot throw:
falsy payloads, bare arrays, and envelopes whose `items` field is falsy or an
array. -/
def itemsShapeOk (payload : JVal) : Prop :=
  payload.truthy = false ∨ payload.isArr = true ∨
    (payload.get "items").truthy = false ∨ (payload.get "items").isArr = true

/-- Resolved payloads on which `fetchPrices`'s date sort cannot throw: every
array form of the payload fails the `sortThrows` test (non-arrays pass
vacuously — they are replaced by the empty list before the sort). -/
def pricesShapeOk (payload : JVal) : Prop :=
  ∀ xs, payload = .arr xs → sortThrows xs = false

/-- One global single-character replacement at the character-list level. -/
def replAll (c : Char) (r : List Char) (l : List Char) : List Char :=
  (l.map (fun ch => if ch = c then r else [ch])).flatten

/-- The five replacements of `esc` at the character-list level, `&` first. -/
def escList (l : List Char) : List Char :=
  replAll '\'' "&#039;".data (replAll '"' "&quot;".data (replAll '>' "&gt;".data
    (replAll '<' "&lt;".data (replAll '&' "&amp;".data l))))

/-- A concrete market entry for witnesses. -/
def coinBTC : Coin :=
  { id := .num 1, rank := .num 1, symbol := .str "BTC", fullSymbol := .str "BTC-USD"
    name := .str "Bitcoin", price := some 50000, change := some (5 / 2)
    vol := .str "1B", mcap := .str "900B" }

/-- A concrete entry with a missing rank. -/
def nullRankCoin : Coin := { coinBTC with rank := .null }

/-- A concrete entry with zero percent change, for the sparkline
counterexample. -/
def sparkCoin : Coin := { coinBTC with change := some 0 }

/-- A dashboard state whose summary cards show exactly `sparkCoin`. -/
def sparkState : AppState :=
  { coins := [], filteredCoins := [], totalCoins := .num 0, topCoins := [sparkCoin] }

/-- A random stream producing no jitter (`Math.random() = 0.5` throughout). -/
def randA : ℕ → ℚ := fun _ => 1 / 2

/-- A random stream whose first draw is 0 and the rest 0.5. -/
def randB : ℕ → ℚ := fun i => if i = 0 then 0 else 1 / 2

/-! Helper lemmas (not tied to any single claim). -/

theorem replAll_append (c : Char) (r : List Char) (l₁ l₂ : List Char) :
    replAll c r (l₁ ++ l₂) = replAll c r l₁ ++ replAll c r l₂ := by
  simp [replAll]

theorem escList_append (l₁ l₂ : List Char) :
    escList (l₁ ++ l₂) = escList l₁ ++ escList l₂ := by
  simp [escList, replAll_append]

theorem replAll_single (c rc : Char) (r : List Char) :
    replAll rc r [c] = if c = rc then r else [c] := by
  simp [replAll]

theorem escList_single (c : Char) : escList [c] = escChar c := by
  by_cases h1 : c = '&'
  · subst h1; rfl
  by_cases h2 : c = '<'
  · subst h2; rfl
  by_cases h3 : c = '>'
  · subst h3; rfl
  by_cases h4 : c = '"'
  · subst h4; rfl
  by_cases h5 : c = '\''
  · subst h5; rfl
  unfold escList
  rw [replAll_single, if_neg h1, replAll_single, if_neg h2, replAll_single, if_neg h3,
    replAll_single, if_neg h4, replAll_single, if_neg h5]
  simp [escChar, h1, h2, h3, h4, h5]

theorem escList_eq (l : List Char) : escList l = (l.map escChar).flatten := by
  induction l with
  | nil => rfl
  | cons c cs ih =>
    have hsplit : c :: cs = [c] ++ cs := rfl
    rw [hsplit, escList_append, ih, escList_single]
    simp

theorem esc_str_data (s : String) : (esc (.str s)).data = escList s.data := rfl

theorem escChar_safe (d c : Char) (hc : c ∈ escChar d) :
    c ≠ '<' ∧ c ≠ '>' ∧ c ≠ '"' ∧ c ≠ '\'' := by
  unfold escChar at hc
  split_ifs at hc with h1 h2 h3 h4 h5
  · have hd : "&amp;".data = ['&', 'a', 'm', 'p', ';'] := rfl
    rw [hd] at hc
    simp only [List.mem_cons, List.not_mem_nil, or_false] at hc
    rcases hc with rfl | rfl | rfl | rfl | rfl <;> decide
  · have hd : "&lt;".data = ['&', 'l', 't', ';'] := rfl
    rw [hd] at hc
    simp only [List.mem_cons, List.not_mem_nil, or_false] at hc
    rcases hc with rfl | rfl | rfl | rfl <;> decide
  · have hd : "&gt;".data = ['&', 'g', 't', ';'] := rfl
    rw [hd] at hc
    simp only [List.mem_cons, List.not_mem_nil, or_false] at hc
    rcases hc with rfl | rfl | rfl | rfl <;> decide
  · have hd : "&quot;".data = ['&', 'q', 'u', 'o', 't', ';'] := rfl
    rw [hd] at hc
    simp only [List.mem_cons, List.not_mem_nil, or_false] at hc
    rcases hc with rfl | rfl | rfl | rfl | rfl | rfl <;> decide
  · have hd : "&#039;".data = ['&', '#', '0', '3', '9', ';'] := rfl
    rw [hd] at hc
    simp only [List.mem_cons, List.not_mem_nil, or_false] at hc
    rcases hc with rfl | rfl | rfl | rfl | rfl | rfl <;> decide
  · simp only [List.mem_singleton] at hc
    subst hc
    exact ⟨h2, h3, h4, h5⟩

set_option maxHeartbeats 1000000 in
theorem chUp_ne_a (c : Char) : chUp c ≠ 'a' := by
  unfold chUp
  by_cases h1 : c = 'a'
  · rw [if_pos h1]; decide
  rw [if_neg h1]
  by_cases h2 : c = 'b'
  · rw [if_pos h2]; decide
  rw [if_neg h2]
  by_cases h3 : c = 'c'
  · rw [if_pos h3]; decide
  rw [if_neg h3]
  by_cases h4 : c = 'd'
  · rw [if_pos h4]; decide
  rw [if_neg h4]
  by_cases h5 : c = 'e'
  · rw [if_pos h5]; decide
  rw [if_neg h5]
  by_cases h6 : c = 'f'
  · rw [if_pos h6]; decide
  rw [if_neg h6]
  by_cases h7 : c = 'g'
  · rw [if_pos h7]; decide
  rw [if_neg h7]
  by_cases h8 : c = 'h'
  · rw [if_pos h8]; decide
  rw [if_neg h8]
  by_cases h9 : c = 'i'
  · rw [if_pos h9]; decide
  rw [if_neg h9]
  by_cases h10 : c = 'j'
  · rw [if_pos h10]; decide
  rw [if_neg h10]
  by_cases h11 : c = 'k'
  · rw [if_pos h11]; decide
  rw [if_neg h11]
  by_cases h12 : c = 'l'
  · rw [if_pos h12]; decide
  rw [if_neg h12]
  by_cases h13 : c = 'm'
  · rw [if_pos h13]; decide
  rw [if_neg h13]
  by_cases h14 : c = 'n'
  · rw [if_pos h14]; decide
  rw [if_neg h14]
  by_cases h15 : c = 'o'
  · rw [if_pos h15]; decide
  rw [if_neg h15]
  by_cases h16 : c = 'p'
  · rw [if_pos h16]; decide
  rw [if_neg h16]
  by_cases h17 : c = 'q'
  · rw [if_pos h17]; decide
  rw [if_neg h17]
  by_cases h18 : c = 'r'
  · rw [if_pos h18]; decide
  rw [if_neg h18]
  by_cases h19 : c = 's'
  · rw [if_pos h19]; decide
  rw [if_neg h19]
  by_cases h20 : c = 't'
  · rw [if_pos h20]; decide
  rw [if_neg h20]
  by_cases h21 : c = 'u'
  · rw [if_pos h21]; decide
  rw [if_neg h21]
  by_cases h22 : c = 'v'
  · rw [if_pos h22]; decide
  rw [if_neg h22]
  by_cases h23 : c = 'w'
  · rw [if_pos h23]; decide
  rw [if_neg h23]
  by_cases h24 : c = 'x'
  · rw [if_pos h24]; decide
  rw [if_neg h24]
  by_cases h25 : c = 'y'
  · rw [if_pos h25]; decide
  rw [if_neg h25]
  by_cases h26 : c = 'z'
  · rw [if_pos h26]; decide
  rw [if_neg h26]
  exact h1

theorem mem_replaceFirstCh {c : Char} :
    ∀ {l : List Char} {a b : Char}, c ∈ replaceFirstCh l a b → c ∈ l ∨ c = b := by
  intro l
  induction l with
  | nil => intro a b h; cases h
  | cons x xs ih =>
    intro a b h
    unfold replaceFirstCh at h
    split_ifs at h
    · rcases List.mem_cons.mp h with rfl | h
      · exact Or.inr rfl
      · exact Or.inl (List.mem_cons_of_mem _ h)
    · rcases List.mem_cons.mp h with rfl | h
      · exact Or.inl (List.mem_cons_self _ _)
      · rcases ih h with h | h
        · exact Or.inl (List.mem_cons_of_mem _ h)
        · exact Or.inr h

theorem listPrefixB_mem {needle l : List Char} (h : listPrefixB needle l = true) :
    ∀ c ∈ needle, c ∈ l := by
  induction needle generalizing l with
  | nil => intro c hc; cases hc
  | cons a as ih =>
    cases l with
    | nil => cases h
    | cons b bs =>
      unfold listPrefixB at h
      rw [Bool.and_eq_true] at h
      obtain ⟨ha, hb⟩ := h
      intro c hc
      rcases List.mem_cons.mp hc with rfl | hc
      · exact (of_decide_eq_true ha) ▸ List.mem_cons_self _ _
      · exact List.mem_cons_of_mem _ (ih hb c hc)

theorem listSubB_mem {needle l : List Char} (h : listSubB needle l = true)
    {c : Char} (hc : c ∈ needle) : c ∈ l := by
  induction l with
  | nil =>
    unfold listSubB at h
    cases needle with
    | nil => cases hc
    | cons x xs => cases h
  | cons b bs ih =>
    unfold listSubB at h
    rw [Bool.or_eq_true] at h
    rcases h with h | h
    · exact listPrefixB_mem h c hc
    · exact List.mem_cons_of_mem _ (ih h)

theorem containsStr_NaN_false {t : String} (h : 'a' ∉ t.data) :
    containsStr "NaN" t = false := by
  cases hcs : containsStr "NaN" t
  · rfl
  · exact absurd (listSubB_mem hcs (by decide)) h

theorem loadAndRenderDetailRange_eq (oracle : Option String → List JVal)
    (cache : RangeCacheT) (r : String) :
    loadAndRenderDetailRange oracle cache r =
      match cacheGet cache (strUpper r) with
      | some prices => (cache, prices, false)
      | none => ((strUpper r, oracle (rangeLabelToTimeframeParam r)) :: cache,
          oracle (rangeLabelToTimeframeParam r), true) := rfl

theorem jsCeil_eq (q : ℚ) : jsCeil q = ⌈q⌉ := by
  have h1 : ⌈q⌉ = -⌊-q⌋ := rfl
  rw [h1, Rat.floor_def]
  rfl

theorem renderClampStep_eval (t : ℚ) (len : ℕ) (ps : ℚ) (cp : ℤ) (h : ps ≠ 0) :
    (renderClampStep (.num t) len ⟨ps, cp⟩).totalPages = max 1 ⌈t / ps⌉ ∧
    (renderClampStep (.num t) len ⟨ps, cp⟩).pag.currentPage =
      min (max cp 1) (max 1 ⌈t / ps⌉) := by
  constructor
  · show max 1 (jsCeil (t / if ps = 0 then 50 else ps)) = _
    rw [if_neg h, jsCeil_eq]
  · show min (max cp 1) (max 1 (jsCeil (t / if ps = 0 then 50 else ps))) = _
    rw [if_neg h, jsCeil_eq]

theorem fetchSymbolsPageOfPayload_truthy (p : JVal) (hp : p.truthy = true) :
    fetchSymbolsPageOfPayload p =
      match (normalizeSymbolsResponse p).1 with
      | .arr xs => .ok (xs.map mapSymbolToCoin, (normalizeSymbolsResponse p).2)
      | _ => .error () := by
  unfold fetchSymbolsPageOfPayload
  rw [hp]
  rfl

theorem fetchSymbolsPageOfPayload_falsy (p : JVal) (hp : p.truthy = false) :
    fetchSymbolsPageOfPayload p = .ok ([], .num 0) := by
  unfold fetchSymbolsPageOfPayload
  rw [hp]
  rfl

theorem normalizeSymbolsResponse_notArr (p : JVal) (hparr : p.isArr = false) :
    normalizeSymbolsResponse p =
      (if (p.get "items").truthy then p.get "items" else .arr [],
        if !(p.get "total").nullish then p.get "total"
        else if (if (p.get "items").truthy then p.get "items" else .arr []).truthy
          then (if (p.get "items").truthy then p.get "items" else .arr []).jlen
          else .num 0) := by
  unfold normalizeSymbolsResponse
  rw [hparr]
  rfl

theorem cacheGet_runDetailRanges (oracle : Option String → List JVal)
    (rs : List String) (cache : RangeCacheT) (k : String) (v : List JVal)
    (h : cacheGet cache k = some v) :
    cacheGet (runDetailRanges oracle rs cache).1 k = some v := by
  induction rs generalizing cache with
  | nil => simpa [runDetailRanges] using h
  | cons r rs ih =>
    simp only [runDetailRanges]
    apply ih
    rw [loadAndRenderDetailRange_eq]
    cases hc : cacheGet cache (strUpper r) with
    | some p => simpa using h
    | none =>
      by_cases hk : strUpper r = k
      · subst hk; rw [h] at hc; cases hc
      · simpa [cacheGet, hk] using h

/-! Claim theorems. -/

/-- C2: for every state reaching the dashboard render path's clamping step,
the clamped pagination satisfies `1 ≤ currentPage ≤ totalPages` with
`totalPages = max(1, ceil(totalCoins / pageSize))`, for every value of
`totalCoins` (numeric — including 0 and negatives — or not) and every
`pageSize` in the enumerated rows-per-page set. -/
theorem pagination_clamp_invariant (totalCoins : JVal) (coinsLen : ℕ) (pag : Pagination)
    (hps : pag.pageSize = 10 ∨ pag.pageSize = 50 ∨ pag.pageSize = 100) :
    1 ≤ (renderClampStep totalCoins coinsLen pag).pag.currentPage ∧
    (renderClampStep totalCoins coinsLen pag).pag.currentPage ≤
      (renderClampStep totalCoins coinsLen pag).totalPages ∧
    (renderClampStep totalCoins coinsLen pag).totalPages =
      max 1 ⌈(renderClampStep totalCoins coinsLen pag).total / pag.pageSize⌉ ∧
    (∀ t : ℚ, totalCoins = .num t → (renderClampStep totalCoins coinsLen pag).total = t) := by
  have hne : pag.pageSize ≠ 0 := by
    rcases hps with h | h | h <;> rw [h] <;> norm_num
  refine ⟨?_, ?_, ?_, ?_⟩
  · exact le_min (le_max_right _ 1) (le_max_left 1 _)
  · exact min_le_right _ _
  · show max 1 (jsCeil (_ / (if pag.pageSize = 0 then 50 else pag.pageSize))) = _
    rw [if_neg hne, jsCeil_eq]
    rfl
  · intro t ht
    subst ht
    rfl

/-- Witness for C2 at `totalCoins = 0`, `pageSize = 50`, `currentPage = 7`:
the clamp brings the page back into `[1, 1]`. -/
theorem pagination_clamp_invariant_witness :
    1 ≤ (renderClampStep (.num 0) 0 ⟨50, 7⟩).pag.currentPage ∧
    (renderClampStep (.num 0) 0 ⟨50, 7⟩).pag.currentPage ≤
      (renderClampStep (.num 0) 0 ⟨50, 7⟩).totalPages ∧
    (renderClampStep (.num 0) 0 ⟨50, 7⟩).totalPages =
      max 1 ⌈(renderClampStep (.num 0) 0 ⟨50, 7⟩).total / (50 : ℚ)⌉ ∧
    (∀ t : ℚ, JVal.num 0 = .num t → (renderClampStep (.num 0) 0 ⟨50, 7⟩).total = t) :=
  pagination_clamp_invariant (.num 0) 0 ⟨50, 7⟩ (Or.inr (Or.inl rfl))

/-- C8: the dashboard's only page-navigation requests are the prev/next
handlers; one whose target page lies outside `[1, totalPages]` issues no
fetch, leaves `currentPage` unchanged and raises no error (both handlers are
total).  Next targets `currentPage + 1` (out of range above when it exceeds
the render-time `totalPages`); prev targets `currentPage - 1` (out of range
below when it is under 1; clamping keeps `currentPage ≤ totalPages`, so a
prev target is never out of range above). -/
theorem out_of_range_page_noop :
    (∀ (totalPages : ℤ) (pag : Pagination), 1 ≤ pag.currentPage →
      totalPages < pag.currentPage + 1 → pagNextClick totalPages pag = (pag, false)) ∧
    (∀ pag : Pagination, pag.currentPage - 1 < 1 → pagPrevClick pag = (pag, false)) := by
  constructor
  · intro tp pag _h1 htp
    unfold pagNextClick
    rw [if_neg (by omega)]
  · intro pag h
    unfold pagPrevClick
    rw [if_neg (by omega)]

/-- Witness for C8, covering the spec scenario: total 137 at page size 50
gives `totalPages = 3`, and requesting page 4 from page 3 is a no-op, as is
requesting page 0 from page 1. -/
theorem out_of_range_page_noop_witness :
    (renderClampStep (.num 137) 50 ⟨50, 3⟩).totalPages = 3 ∧
    pagNextClick 3 ⟨50, 3⟩ = (⟨50, 3⟩, false) ∧
    pagPrevClick ⟨50, 1⟩ = (⟨50, 1⟩, false) :=
  ⟨by
    rw [(renderClampStep_eval 137 50 50 3 (by norm_num)).1,
      show ⌈(137 : ℚ) / 50⌉ = 3 by rw [Int.ceil_eq_iff] <;> norm_num]
    decide,
    out_of_range_page_noop.1 3 ⟨50, 3⟩ (by decide) (by decide),
    out_of_range_page_noop.2 ⟨50, 1⟩ (by decide)⟩

/-- C5: on every `setState` call with a genuine patch, a subscriber that
throws does not prevent the remaining subscribers from running (notification
stays in registration order), the state mutation is not rolled back, and the
exception is not propagated to the caller — `setState` returns normally with
the failure merely recorded (logged). -/
theorem setState_subscriber_isolation (patch : JVal) (st : StoreState)
    (pre post : List Subscriber) (f : Subscriber) (e : String)
    (hp : patch.truthy = true) (ho : isObjectType patch = true)
    (hf : f (jsAssign st (patchFields patch)) patch st = .error e) :
    (setState patch st (pre ++ f :: post)).1 = jsAssign st (patchFields patch) ∧
    (setState patch st (pre ++ f :: post)).2 =
      (setState patch st pre).2 ++ some e :: (setState patch st post).2 := by
  unfold setState
  simp [hp, ho, hf]

/-- A subscriber that returns normally. -/
def subOk : Subscriber := fun _ _ _ => .ok ()

/-- A subscriber that throws. -/
def subBoom : Subscriber := fun _ _ _ => .error "subscriber failed"

/-- Witness for C5: with subscribers `[ok, boom, ok]` the merge happens and
all three outcomes are recorded in order. -/
theorem setState_subscriber_isolation_witness :
    (setState (.obj [("theme", .str "dark")]) [] [subOk, subBoom, subOk]).1 =
      jsAssign [] (patchFields (.obj [("theme", .str "dark")])) ∧
    (setState (.obj [("theme", .str "dark")]) [] [subOk, subBoom, subOk]).2 =
      (setState (.obj [("theme", .str "dark")]) [] [subOk]).2 ++
        some "subscriber failed" :: (setState (.obj [("theme", .str "dark")]) [] [subOk]).2 :=
  setState_subscriber_isolation (.obj [("theme", .str "dark")]) [] [subOk] [subOk]
    subBoom "subscriber failed" rfl rfl rfl

/-- C4: for a fixed displayed entity (the cache is rebuilt per detail-page
session), requesting a range whose key is not yet cached issues exactly one
network fetch and stores the fetched series; afterwards every request with
the same (uppercased) range key — in particular after switching to other
ranges and back — returns that same stored series without a network call,
and the cached entry is never overwritten. -/
theorem rangeCache_single_fetch (oracle : Option String → List JVal)
    (cache : RangeCacheT) (r : String)
    (hmiss : cacheGet cache (strUpper r) = none) :
    (loadAndRenderDetailRange oracle cache r).2.2 = true ∧
    (loadAndRenderDetailRange oracle cache r).2.1 = oracle (rangeLabelToTimeframeParam r) ∧
    cacheGet (loadAndRenderDetailRange oracle cache r).1 (strUpper r) =
      some (oracle (rangeLabelToTimeframeParam r)) ∧
    (∀ (rs : List String) (r' : String), strUpper r' = strUpper r →
      loadAndRenderDetailRange oracle
          (runDetailRanges oracle rs (loadAndRenderDetailRange oracle cache r).1).1 r' =
        ((runDetailRanges oracle rs (loadAndRenderDetailRange oracle cache r).1).1,
          oracle (rangeLabelToTimeframeParam r), false)) := by
  have hstep : loadAndRenderDetailRange oracle cache r =
      ((strUpper r, oracle (rangeLabelToTimeframeParam r)) :: cache,
        oracle (rangeLabelToTimeframeParam r), true) := by
    rw [loadAndRenderDetailRange_eq, hmiss]
  refine ⟨by rw [hstep], by rw [hstep], by rw [hstep]; simp [cacheGet], ?_⟩
  intro rs r' hk
  have hcached : cacheGet
      (runDetailRanges oracle rs (loadAndRenderDetailRange oracle cache r).1).1
      (strUpper r) = some (oracle (rangeLabelToTimeframeParam r)) := by
    apply cacheGet_runDetailRanges
    rw [hstep]
    simp [cacheGet]
  rw [loadAndRenderDetailRange_eq, hk, hcached]

/-- Witness for C4: a fresh cache, range "1y", a detour through "10y" and a
return via the differently-cased label "1Y". -/
theorem rangeCache_single_fetch_witness :
    (loadAndRenderDetailRange (fun _ => []) [] "1y").2.2 = true ∧
    loadAndRenderDetailRange (fun _ => [])
        (runDetailRanges (fun _ => []) ["10y"]
          (loadAndRenderDetailRange (fun _ => []) [] "1y").1).1 "1Y" =
      ((runDetailRanges (fun _ => []) ["10y"]
          (loadAndRenderDetailRange (fun _ => []) [] "1y").1).1,
        (fun (_ : Option String) => ([] : List JVal)) (rangeLabelToTimeframeParam "1y"),
        false) :=
  ⟨(rangeCache_single_fetch (fun _ => []) [] "1y" rfl).1,
    (rangeCache_single_fetch (fun _ => []) [] "1y" rfl).2.2.2 ["10y"] "1Y" rfl⟩

/-- C10: `esc` returns a string for every input — the empty string for every
non-string input; on strings it acts character by character (`&` escaped
first, so entities are never re-escaped), and its output never contains `<`,
`>`, `"` or `'`. -/
theorem esc_output_safe :
    (esc .null = "" ∧ esc .undefined = "" ∧ (∀ b, esc (.bool b) = "") ∧
      (∀ q, esc (.num q) = "") ∧ (∀ xs, esc (.arr xs) = "") ∧
      (∀ fs, esc (.obj fs) = "")) ∧
    (∀ s : String, (esc (.str s)).data = (s.data.map escChar).flatten) ∧
    (∀ s : String, ∀ c ∈ (esc (.str s)).data,
      c ≠ '<' ∧ c ≠ '>' ∧ c ≠ '"' ∧ c ≠ '\'') := by
  have hdata : ∀ s : String, (esc (.str s)).data = (s.data.map escChar).flatten := by
    intro s
    rw [esc_str_data, escList_eq]
  refine ⟨⟨rfl, rfl, fun _ => rfl, fun _ => rfl, fun _ => rfl, fun _ => rfl⟩, hdata, ?_⟩
  intro s c hc
  rw [hdata] at hc
  rcases List.mem_flatten.mp hc with ⟨l, hl, hcl⟩
  rcases List.mem_map.mp hl with ⟨d, _, rfl⟩
  exact escChar_safe d c hcl

/-- Witness for C10 at a non-string input and at the string `"<"`. -/
theorem esc_output_safe_witness :
    esc (.num 5) = "" ∧
    (esc (.str "<")).data = (("<".data.map escChar).flatten) ∧
    ('&' ≠ '<' ∧ '&' ≠ '>' ∧ '&' ≠ '"' ∧ '&' ≠ '\'') :=
  ⟨esc_output_safe.1.2.2.2.1 5, esc_output_safe.2.1 "<",
    esc_output_safe.2.2 "<" '&' (by decide)⟩

/-- C7 counterexample: the claim quantifies over every non-numeric input, but
an empty array — a non-numeric value — coerces to 0 and is formatted as
`"$0.00"` by `formatPrice`, and `formatSignal` maps any truthy non-numeric
label to its uppercase form; neither returns the placeholder. -/
theorem formatter_nonnumeric_not_placeholder :
    formatPrice (.arr []) = "$0.00" ∧ "$0.00" ≠ "—" ∧
    (formatSignal (.str "abc")).text = "ABC" ∧ "ABC" ≠ "—" := by
  refine ⟨?_, by decide, ?_, by decide⟩
  · have h0 : toNumber (.arr []) = some 0 := rfl
    simp [formatPrice, h0, JVal.nullish]
  · rfl

/-- C7 (amended): `formatPrice`, `formatChange`, `formatIndicatorValue` and
`formatUSDCompact` return their literal placeholder — and hence never the
text `NaN` — for every input that is nullish or whose JS numeric coercion is
NaN; `formatSignal` returns its placeholder exactly for falsy input, and its
text never contains `"NaN"` for any input (the label is uppercased); all
formatters are total (never throw). -/
theorem formatters_null_safety_amended :
    (∀ v : JVal, v.nullish = true ∨ toNumber v = none →
      formatPrice v = "—" ∧ formatChange v = ⟨"—", ""⟩ ∧
      formatIndicatorValue v = "—" ∧ formatUSDCompact v = "—") ∧
    (∀ v : JVal, v.truthy = false →
      formatSignal v = ⟨"—", "text-gray-500 bg-gray-500/10"⟩) ∧
    (∀ v : JVal, containsStr "NaN" (formatSignal v).text = false) := by
  refine ⟨?_, ?_, ?_⟩
  · intro v h
    have hg : (v.nullish || (toNumber v).isNone) = true := by
      rcases h with h | h
      · simp [h]
      · simp [h]
    exact ⟨by simp [formatPrice, hg], by simp [formatChange, hg],
      by simp [formatIndicatorValue, hg], by simp [formatUSDCompact, hg]⟩
  · intro v h
    simp [formatSignal, h]
  · intro v
    by_cases hv : v.truthy = true
    · have htext : (formatSignal v).text =
          ⟨replaceFirstCh (strUpper (jsToString v)).data '_' ' '⟩ := by
        simp [formatSignal, hv]
      rw [htext]
      apply containsStr_NaN_false
      intro hmem
      have hmem' : 'a' ∈ replaceFirstCh (strUpper (jsToString v)).data '_' ' ' := hmem
      rcases mem_replaceFirstCh hmem' with hin | hsp
      · have : (strUpper (jsToString v)).data = (jsToString v).data.map chUp := rfl
        rw [this] at hin
        rcases List.mem_map.mp hin with ⟨d, _, hd⟩
        exact chUp_ne_a d hd
      · cases hsp
    · have hvf : v.truthy = false := by
        cases hb : v.truthy
        · rfl
        · exact absurd hb hv
      simp [formatSignal, hvf]
      decide

/-- Witness for C7 (amended) at `undefined`, the empty string and a truthy
label. -/
theorem formatters_null_safety_amended_witness :
    (formatPrice .undefined = "—" ∧ formatChange .undefined = ⟨"—", ""⟩ ∧
      formatIndicatorValue .undefined = "—" ∧ formatUSDCompact .undefined = "—") ∧
    formatSignal (.str "") = ⟨"—", "text-gray-500 bg-gray-500/10"⟩ ∧
    containsStr "NaN" (formatSignal (.str "buy")).text = false :=
  ⟨formatters_null_safety_amended.1 .undefined (Or.inl rfl),
    formatters_null_safety_amended.2.1 (.str "") rfl,
    formatters_null_safety_amended.2.2 (.str "buy")⟩

/-- C6 counterexample: a payload of neither recognized shape is claimed to
yield an empty result and never an error, but an envelope whose `items`
field is truthy and not an array makes `fetchSymbolsPage` throw a
`TypeError` (`items.map` is not a function). -/
theorem fetchSymbolsPage_items_nonarray_throws :
    fetchSymbolsPage (.resp true (some (.obj [("items", .str "x")]))) = .error () := rfl

/-- C6 (amended): a bare array yields itself as entries with its length as
total; an envelope with an array `items` yields those entries with its
`total` (falling back to the item count when `total` is nullish); a falsy
payload, or an envelope without a truthy `items`, yields the empty result;
but an envelope whose `items` is truthy and not an array throws. -/
theorem fetchSymbolsPage_normalization_amended :
    (∀ xs : List JVal, fetchSymbolsPageOfPayload (.arr xs) =
      .ok (xs.map mapSymbolToCoin, .num xs.length)) ∧
    (∀ (p : JVal) (xs : List JVal), p.get "items" = .arr xs → p.isArr = false →
      fetchSymbolsPageOfPayload p =
        .ok (xs.map mapSymbolToCoin,
          if (p.get "total").nullish then .num xs.length else p.get "total")) ∧
    (∀ p : JVal, p.truthy = false →
      fetchSymbolsPageOfPayload p = .ok ([], .num 0)) ∧
    (∀ p : JVal, p.truthy = true → p.isArr = false →
      (p.get "items").truthy = false →
      fetchSymbolsPageOfPayload p =
        .ok ([], if (p.get "total").nullish then .num 0 else p.get "total")) ∧
    (∀ p : JVal, p.truthy = true → p.isArr = false →
      (p.get "items").truthy = true → (p.get "items").isArr = false →
      fetchSymbolsPageOfPayload p = .error ()) := by
  refine ⟨fun xs => rfl, ?_, ?_, ?_, ?_⟩
  · intro p xs hitems hparr
    have hobj : p.truthy = true := by
      cases p <;> first | cases hitems | rfl
    rw [fetchSymbolsPageOfPayload_truthy p hobj, normalizeSymbolsResponse_notArr p hparr,
      hitems]
    cases htn : (p.get "total").nullish <;> simp [JVal.truthy, JVal.jlen]
  · intro p hp
    exact fetchSymbolsPageOfPayload_falsy p hp
  · intro p hp hparr hitf
    rw [fetchSymbolsPageOfPayload_truthy p hp, normalizeSymbolsResponse_notArr p hparr,
      hitf]
    cases htn : (p.get "total").nullish <;> simp [JVal.truthy, JVal.jlen]
  · intro p hp hparr hit hitarr
    rw [fetchSymbolsPageOfPayload_truthy p hp, normalizeSymbolsResponse_notArr p hparr,
      hit]
    cases hi : p.get "items" with
    | arr xs => rw [hi] at hitarr; cases hitarr
    | null => rw [hi] at hit; cases hit
    | undefined => rw [hi] at hit; cases hit
    | bool b => simp
    | num q => simp
    | str s => simp
    | obj fs => simp

/-- Witness for C6 (amended): a bare array, an envelope with items and total,
an envelope without items, and a throwing envelope. -/
theorem fetchSymbolsPage_normalization_amended_witness :
    fetchSymbolsPageOfPayload (.arr []) = .ok ([], .num 0) ∧
    fetchSymbolsPageOfPayload (.obj [("items", .arr []), ("total", .num 42)]) =
      .ok ([], .num 42) ∧
    fetchSymbolsPageOfPayload (.obj [("note", .str "x")]) = .ok ([], .num 0) ∧
    fetchSymbolsPageOfPayload (.obj [("items", .str "x")]) = .error () := by
  refine ⟨fetchSymbolsPage_normalization_amended.1 [], ?_, ?_, ?_⟩
  · have h := fetchSymbolsPage_normalization_amended.2.1
      (.obj [("items", .arr []), ("total", .num 42)]) [] rfl rfl
    rw [h]
    rfl
  · have h := fetchSymbolsPage_normalization_amended.2.2.2.1
      (.obj [("note", .str "x")]) rfl rfl rfl
    rw [h]
    rfl
  · exact fetchSymbolsPage_normalization_amended.2.2.2.2
      (.obj [("items", .str "x")]) rfl rfl rfl rfl

/-- C1 counterexample: a transport failure (the promise returned by `fetch`
rejects) propagates out of `fetchPrices` as an exception — `getJson` only
guards the status check and the body parse, not the `await fetch` itself; a
successfully parsed array body whose elements include `null` makes the sort
comparator's plain `a.date` access raise a `TypeError` out of `fetchPrices`;
and a parsed body with a truthy non-array `items` escapes `fetchSymbolsPage`
as a `TypeError`. -/
theorem gateway_reject_propagates :
    fetchPrices .reject "BTC" none = .error () ∧
    fetchPrices (.resp true (some (.arr [.null, .null]))) "BTC" none = .error () ∧
    fetchSymbolsPage (.resp true (some (.obj [("items", .bool true)]))) = .error () :=
  ⟨rfl, rfl, rfl⟩

/-- C1 (amended): whenever `fetch` itself resolves, every gateway operation
converts a non-success status or malformed body into its absent/empty result
and returns without raising — for `fetchSymbolsPage` provided the payload's
`items` shape is sane, and for `fetchPrices` provided no compared element of
an array payload is nullish; a resolved array body that fails that proviso
escapes `fetchPrices` as a comparator `TypeError`, and when the transport
fails (the fetch promise rejects) every operation that actually issues the
request propagates the exception to its caller. -/
theorem gateway_resolved_absorbs_failures :
    (∀ ok body, ∃ v, getJson (.resp ok body) = .ok v) ∧
    (∀ ok body sym tf v, getJson (.resp ok body) = .ok v → pricesShapeOk v →
      ∃ r, fetchPrices (.resp ok body) sym tf = .ok r) ∧
    (∀ ok body sym, ∃ r, fetchTechnical (.resp ok body) sym = .ok r) ∧
    (∀ ok body sym, ∃ r, fetchLstm (.resp ok body) sym = .ok r) ∧
    (∀ ok body sym, ∃ r, fetchSentiment (.resp ok body) sym = .ok r) ∧
    (∀ ok body sym, ∃ r, fetchOnchain (.resp ok body) sym = .ok r) ∧
    (∀ ok body sym, ∃ r, fetchSignal (.resp ok body) sym = .ok r) ∧
    (∀ p : JVal, itemsShapeOk p → ∃ r, fetchSymbolsPageOfPayload p = .ok r) ∧
    (∀ (fb : FetchBehavior) (sym : String) (tf : Option String) (xs : List JVal),
      sym ≠ "" → getJson fb = .ok (.arr xs) → sortThrows xs = true →
      fetchPrices fb sym tf = .error ()) ∧
    (∀ sym tf, sym ≠ "" →
      fetchPrices .reject sym tf = .error () ∧ fetchTechnical .reject sym = .error () ∧
      fetchLstm .reject sym = .error () ∧ fetchSentiment .reject sym = .error () ∧
      fetchOnchain .reject sym = .error () ∧ fetchSignal .reject sym = .error ()) ∧
    fetchSymbolsPage .reject = .error () := by
  have hget : ∀ ok body, ∃ v, getJson (.resp ok body) = .ok v := by
    intro ok body
    cases ok
    · exact ⟨.null, rfl⟩
    · cases body
      · exact ⟨.null, rfl⟩
      · exact ⟨_, rfl⟩
  refine ⟨hget, ?_, ?_, ?_, ?_, ?_, ?_, ?_, ?_, ?_, rfl⟩
  · intro ok body sym tf v hv hshape
    unfold fetchPrices
    by_cases h : sym = ""
    · rw [if_pos h]; exact ⟨[], rfl⟩
    · rw [if_neg h, hv]
      show ∃ r, fetchPricesOfPayload v = .ok r
      cases v with
      | arr xs =>
        have hs := hshape xs rfl
        simp only [fetchPricesOfPayload]
        rw [hs]
        exact ⟨_, rfl⟩
      | null => exact ⟨[], rfl⟩
      | undefined => exact ⟨[], rfl⟩
      | bool b => exact ⟨[], rfl⟩
      | num q => exact ⟨[], rfl⟩
      | str s => exact ⟨[], rfl⟩
      | obj fs => exact ⟨[], rfl⟩
  · intro ok body sym
    unfold fetchTechnical
    by_cases h : sym = ""
    · rw [if_pos h]; exact ⟨.null, rfl⟩
    · rw [if_neg h]; exact hget ok body
  · intro ok body sym
    unfold fetchLstm
    by_cases h : sym = ""
    · rw [if_pos h]; exact ⟨.null, rfl⟩
    · rw [if_neg h]; exact hget ok body
  · intro ok body sym
    unfold fetchSentiment
    by_cases h : sym = ""
    · rw [if_pos h]; exact ⟨.null, rfl⟩
    · rw [if_neg h]; exact hget ok body
  · intro ok body sym
    unfold fetchOnchain
    by_cases h : sym = ""
    · rw [if_pos h]; exact ⟨.null, rfl⟩
    · rw [if_neg h]; exact hget ok body
  · intro ok body sym
    unfold fetchSignal
    by_cases h : sym = ""
    · rw [if_pos h]; exact ⟨.null, rfl⟩
    · rw [if_neg h]; exact hget ok body
  · intro p hshape
    by_cases hp : p.truthy = true
    · rcases hshape with h | h | h | h
      · rw [h] at hp; cases hp
      · cases p with
        | arr xs => exact ⟨_, rfl⟩
        | null => cases h
        | undefined => cases h
        | bool b => cases h
        | num q => cases h
        | str s => cases h
        | obj fs => cases h
      · by_cases hparr : p.isArr = true
        · cases p with
          | arr xs => exact ⟨_, rfl⟩
          | null => cases hparr
          | undefined => cases hparr
          | bool b => cases hparr
          | num q => cases hparr
          | str s => cases hparr
          | obj fs => cases hparr
        · have hparr' : p.isArr = false := by
            cases hb : p.isArr
            · rfl
            · exact absurd hb hparr
          refine ⟨([], if (p.get "total").nullish then JVal.num 0 else p.get "total"), ?_⟩
          rw [fetchSymbolsPageOfPayload_truthy p hp,
            normalizeSymbolsResponse_notArr p hparr', h]
          cases htn : (p.get "total").nullish <;> simp [JVal.truthy, JVal.jlen]
      · by_cases hparr : p.isArr = true
        · cases p with
          | arr xs => exact ⟨_, rfl⟩
          | null => cases hparr
          | undefined => cases hparr
          | bool b => cases hparr
          | num q => cases hparr
          | str s => cases hparr
          | obj fs => cases hparr
        · have hparr' : p.isArr = false := by
            cases hb : p.isArr
            · rfl
            · exact absurd hb hparr
          cases hi : p.get "items" with
          | arr xs =>
            refine ⟨(xs.map mapSymbolToCoin,
              if (p.get "total").nullish then JVal.num xs.length else p.get "total"), ?_⟩
            rw [fetchSymbolsPageOfPayload_truthy p hp,
              normalizeSymbolsResponse_notArr p hparr', hi]
            cases htn : (p.get "total").nullish <;> simp [JVal.truthy, JVal.jlen]
          | null => rw [hi] at h; cases h
          | undefined => rw [hi] at h; cases h
          | bool b => rw [hi] at h; cases h
          | num q => rw [hi] at h; cases h
          | str s => rw [hi] at h; cases h
          | obj fs => rw [hi] at h; cases h
    · have hp' : p.truthy = false := by
        cases hb : p.truthy
        · rfl
        · exact absurd hb hp
      exact ⟨_, fetchSymbolsPageOfPayload_falsy p hp'⟩
  · intro fb sym tf xs h hfb hthrow
    unfold fetchPrices
    rw [if_neg h, hfb]
    show fetchPricesOfPayload (.arr xs) = .error ()
    simp only [fetchPricesOfPayload]
    rw [hthrow]
    rfl
  · intro sym tf h
    refine ⟨?_, ?_, ?_, ?_, ?_, ?_⟩
    · unfold fetchPrices
      rw [if_neg h]
      rfl
    · unfold fetchTechnical
      rw [if_neg h]
      rfl
    · unfold fetchLstm
      rw [if_neg h]
      rfl
    · unfold fetchSentiment
      rw [if_neg h]
      rfl
    · unfold fetchOnchain
      rw [if_neg h]
      rfl
    · unfold fetchSignal
      rw [if_neg h]
      rfl

/-- Witness for C1 (amended): a resolved null-free single-element array body,
a resolved empty-array symbols payload, a resolved array body with a `null`
among its two compared elements, and a rejecting transport with a nonempty
symbol. -/
theorem gateway_resolved_absorbs_failures_witness :
    (∃ v, getJson (.resp false none) = .ok v) ∧
    (∃ r, fetchPrices (.resp true (some (.arr [.num 1]))) "BTC" none = .ok r) ∧
    (∃ r, fetchSymbolsPageOfPayload (.arr []) = .ok r) ∧
    fetchPrices (.resp true (some (.arr [.null, .str "x"]))) "BTC" none = .error () ∧
    fetchPrices .reject "BTC" none = .error () ∧
    fetchTechnical .reject "BTC" = .error () :=
  ⟨gateway_resolved_absorbs_failures.1 false none,
    gateway_resolved_absorbs_failures.2.1 true (some (.arr [.num 1])) "BTC" none
      (.arr [.num 1]) rfl (fun xs hxs => by cases hxs; rfl),
    gateway_resolved_absorbs_failures.2.2.2.2.2.2.2.1 (.arr []) (Or.inr (Or.inl rfl)),
    gateway_resolved_absorbs_failures.2.2.2.2.2.2.2.2.1
      (.resp true (some (.arr [.null, .str "x"]))) "BTC" none [.null, .str "x"]
      (by decide) rfl rfl,
    (gateway_resolved_absorbs_failures.2.2.2.2.2.2.2.2.2.1 "BTC" none (by decide)).1,
    (gateway_resolved_absorbs_failures.2.2.2.2.2.2.2.2.2.1 "BTC" none (by decide)).2.1⟩

/-- C3 counterexample: the snapshot is not "captured exactly once, on the
first successful page-1 fetch".  In a session whose first successful page-1
fetch resolves with zero coins, `topCoins` is set to `[]`; a later page-1
load (a subsequent page navigation) then sets `topCoins` again, to a value
different from the first capture — so a page navigation did change
`topCoins`. -/
theorem topCoins_recaptured_after_empty :
    (runSession [(1, .ok ([], .num 0))]
        ⟨[], [], .num 0, []⟩).topCoins = [] ∧
    (runSession [(1, .ok ([], .num 0)), (1, .ok ([coinBTC], .num 1))]
        ⟨[], [], .num 0, []⟩).topCoins = [coinBTC] ∧
    ([coinBTC] : List Coin) ≠ [] := by
  refine ⟨rfl, rfl, by simp⟩

/-- C3 (amended): `topCoins` is (re)captured by any page-1 load that
completes while the snapshot is empty — so an empty first snapshot may be
replaced by a later page-1 fetch; once the snapshot is nonempty, no page
load (page 1 or otherwise) ever changes it, and loads of pages other than 1
never change it at all.  The summary-card view is the first 5 entries of the
snapshot (falling back to the current page when the snapshot is empty),
stably sorted ascending by rank with missing rank sorting last
(`MAX_SAFE_INTEGER`). -/
theorem topCoins_capture_amended :
    (∀ (st : AppState) (p : ℤ) (r : Except Unit (List Coin × JVal)),
      st.topCoins ≠ [] → (loadCoinsPage p r st).topCoins = st.topCoins) ∧
    (∀ (st : AppState) (p : ℤ) (r : Except Unit (List Coin × JVal)),
      p ≠ 1 → (loadCoinsPage p r st).topCoins = st.topCoins) ∧
    (∀ (st : AppState) (cs : List Coin) (t : JVal),
      st.topCoins = [] → (loadCoinsPage 1 (.ok (cs, t)) st).topCoins = cs) ∧
    (∀ topCoins coins : List Coin,
      List.Sorted rankLe (renderTopCardsSelect topCoins coins)) ∧
    (∀ topCoins coins : List Coin, (renderTopCardsSelect topCoins coins).length ≤ 5) ∧
    (∀ (topCoins coins : List Coin) (c : Coin), c ∈ renderTopCardsSelect topCoins coins →
      c ∈ (if topCoins.isEmpty then coins else topCoins)) ∧
    (∀ c : Coin, c.rank.nullish = true → rankKey c = MAX_SAFE_INTEGER) := by
  refine ⟨?_, ?_, ?_, ?_, ?_, ?_, ?_⟩
  · intro st p r h
    have he : st.topCoins.isEmpty = false := by
      cases hl : st.topCoins
      · exact absurd hl h
      · rfl
    cases r with
    | error e => rfl
    | ok pr =>
      obtain ⟨cs, t⟩ := pr
      simp [loadCoinsPage, he]
  · intro st p r h
    cases r with
    | error e => rfl
    | ok pr =>
      obtain ⟨cs, t⟩ := pr
      simp [loadCoinsPage, h]
  · intro st cs t h
    simp [loadCoinsPage, h]
  · intro tc cs
    exact (List.sorted_insertionSort rankLe _).sublist
      (List.take_sublist 5 _)
  · intro tc cs
    exact List.length_take_le 5 _
  · intro tc cs c hc
    have h1 : c ∈ List.insertionSort rankLe (if tc.isEmpty then cs else tc) :=
      List.take_subset 5 _ hc
    exact (List.perm_insertionSort rankLe _).subset h1
  · intro c h
    simp [rankKey, h, toNumber]

/-- Witness for C3 (amended): a nonempty snapshot survives a page-2 load and
an empty snapshot captures a page-1 fetch; the card view of a one-coin
snapshot is that coin; a nullish rank keys to `MAX_SAFE_INTEGER`. -/
theorem topCoins_capture_amended_witness :
    (loadCoinsPage 2 (.ok ([], .num 0)) ⟨[], [], .num 0, [coinBTC]⟩).topCoins = [coinBTC] ∧
    (loadCoinsPage 1 (.ok ([coinBTC], .num 1)) ⟨[], [], .num 0, []⟩).topCoins = [coinBTC] ∧
    coinBTC ∈ (if ([coinBTC] : List Coin).isEmpty then ([] : List Coin) else [coinBTC]) ∧
    rankKey nullRankCoin = MAX_SAFE_INTEGER :=
  ⟨topCoins_capture_amended.1 ⟨[], [], .num 0, [coinBTC]⟩ 2 (.ok ([], .num 0)) (by simp),
    topCoins_capture_amended.2.2.1 ⟨[], [], .num 0, []⟩ [coinBTC] (.num 1) rfl,
    topCoins_capture_amended.2.2.2.2.2.1 [coinBTC] [] coinBTC
      (List.mem_singleton_self coinBTC),
    topCoins_capture_amended.2.2.2.2.2.2 nullRankCoin rfl⟩

/-! C9 helpers: evaluation of the sparkline pipeline on the two concrete
random streams. -/

theorem eraseCard_renderCard (rand : ℕ → ℚ) (j : ℕ) (c : Coin) :
    eraseCard (renderCard rand j c) =
      { symbolDisplay := symbolDisplayOf c
        nameDisplay := nameDisplayOf c
        priceText := formatPrice (optNum c.price)
        change := formatChange (optNum c.change)
        detailSymbol := detailSymbolOf c
        isUp := decide (0 ≤ c.change.getD 0)
        pathCoords := [] } := rfl

theorem foldl_min_replicate (a b : ℚ) (h : min a b = a) (n : ℕ) :
    List.foldl min a (List.replicate n b) = a := by
  induction n with
  | zero => rfl
  | succ k ih => rw [List.replicate_succ, List.foldl_cons, h, ih]

theorem foldl_max_replicate (a b : ℚ) (h : max a b = a) (n : ℕ) :
    List.foldl max a (List.replicate n b) = a := by
  induction n with
  | zero => rfl
  | succ k ih => rw [List.replicate_succ, List.foldl_cons, h, ih]

theorem points_jitterless (f : ℕ → ℚ) (off : ℕ) (hf : ∀ i, f (off + i) = 1 / 2) :
    buildSparklinePoints (.num 0) f off = List.replicate 20 100 := by
  simp only [buildSparklinePoints]
  apply List.eq_replicate_iff.mpr
  refine ⟨by simp, ?_⟩
  intro b hb
  rcases List.mem_map.mp hb with ⟨i, _, rfl⟩
  rw [hf i]
  simp only [toNumber, Option.getD_some]
  ring_nf

theorem pointsB_eval :
    buildSparklinePoints (.num 0) randB 0 = 98 :: List.replicate 19 100 := by
  simp only [buildSparklinePoints]
  rw [List.range_succ_eq_map, List.map_cons, List.map_map]
  congr 1
  · simp only [toNumber, Option.getD_some, randB]
    norm_num
  · apply List.eq_replicate_iff.mpr
    refine ⟨by simp, ?_⟩
    intro b hb
    rcases List.mem_map.mp hb with ⟨i, _, rfl⟩
    simp only [Function.comp, toNumber, Option.getD_some, randB, Nat.zero_add,
      Nat.succ_ne_zero, if_false]
    ring_nf

theorem path_snd_flat :
    (buildSparklinePath (List.replicate 20 (100 : ℚ))).map Prod.snd =
      List.replicate 20 32 := by
  have h20 : List.replicate 20 (100 : ℚ) = 100 :: List.replicate 19 100 := rfl
  rw [h20]
  simp only [buildSparklinePath]
  rw [foldl_min_replicate 100 100 (min_self 100) 19,
    foldl_max_replicate 100 100 (max_self 100) 19,
    if_pos (by norm_num : (100 : ℚ) - 100 = 0), List.map_map]
  apply List.eq_replicate_iff.mpr
  refine ⟨by simp, ?_⟩
  intro b hb
  rcases List.mem_map.mp hb with ⟨p, hp, rfl⟩
  have h2 : p.2 = 100 := by
    have hm := List.snd_mem_of_mem_enum hp
    rw [← h20] at hm
    exact List.eq_of_mem_replicate hm
  simp only [Function.comp_apply, h2]
  norm_num

theorem path_snd_B :
    (buildSparklinePath (98 :: List.replicate 19 (100 : ℚ))).map Prod.snd =
      (32 : ℚ) :: List.replicate 19 0 := by
  simp only [buildSparklinePath]
  have hmn : List.foldl min (98 : ℚ) (List.replicate 19 100) = 98 :=
    foldl_min_replicate 98 100 (by norm_num) 19
  have hmx : List.foldl max (98 : ℚ) (List.replicate 19 100) = 100 := by
    have h19 : List.replicate 19 (100 : ℚ) = 100 :: List.replicate 18 100 := rfl
    rw [h19, List.foldl_cons, show max (98 : ℚ) 100 = 100 by norm_num]
    exact foldl_max_replicate 100 100 (max_self 100) 18
  rw [hmn, hmx, if_neg (by norm_num : ¬((100 : ℚ) - 98 = 0))]
  apply List.cons_eq_cons.mpr
  constructor
  · norm_num
  · rw [List.map_map]
    apply List.eq_replicate_iff.mpr
    refine ⟨by simp, ?_⟩
    intro b hb
    rcases List.mem_map.mp hb with ⟨p, hp, rfl⟩
    have hm : p.2 ∈ List.replicate 19 (100 : ℚ) := List.snd_mem_of_mem_enumFrom hp
    have h2 : p.2 = 100 := List.eq_of_mem_replicate hm
    show (32 : ℚ) - (p.2 - 98) / (100 - 98) * 32 = 0
    rw [h2]
    norm_num

/-- C9 counterexample: rendering twice with the same unchanged state gives
different displayed output, because the sparkline jitter is drawn fresh from
`Math.random()` on every render — here the same one-coin state rendered
under two random streams yields different sparkline paths. -/
theorem renderDashboard_output_random_differs :
    renderDashboardView sparkState ⟨50, 1⟩ randA ≠
      renderDashboardView sparkState ⟨50, 1⟩ randB := by
  intro h
  have h2 : (renderDashboardView sparkState ⟨50, 1⟩ randA).1.cards.map
        (fun c => c.pathCoords.map Prod.snd) =
      (renderDashboardView sparkState ⟨50, 1⟩ randB).1.cards.map
        (fun c => c.pathCoords.map Prod.snd) :=
    congrArg
      (fun pr : DashOut × Pagination =>
        pr.1.cards.map (fun c => c.pathCoords.map Prod.snd)) h
  have hviewA : (renderDashboardView sparkState ⟨50, 1⟩ randA).1.cards =
      [renderCard randA 0 sparkCoin] := rfl
  have hviewB : (renderDashboardView sparkState ⟨50, 1⟩ randB).1.cards =
      [renderCard randB 0 sparkCoin] := rfl
  have hptsA : buildSparklinePoints (optNum sparkCoin.change) randA (20 * 0) =
      List.replicate 20 100 :=
    points_jitterless randA 0 (fun _ => rfl)
  have hptsB : buildSparklinePoints (optNum sparkCoin.change) randB (20 * 0) =
      98 :: List.replicate 19 100 :=
    pointsB_eval
  have e1 : (renderDashboardView sparkState ⟨50, 1⟩ randA).1.cards.map
      (fun c => c.pathCoords.map Prod.snd) = [List.replicate 20 (32 : ℚ)] := by
    rw [hviewA, List.map_cons, List.map_nil,
      show (renderCard randA 0 sparkCoin).pathCoords =
        buildSparklinePath (buildSparklinePoints (optNum sparkCoin.change) randA (20 * 0))
        from rfl,
      hptsA, path_snd_flat]
  have e2 : (renderDashboardView sparkState ⟨50, 1⟩ randB).1.cards.map
      (fun c => c.pathCoords.map Prod.snd) = [(32 : ℚ) :: List.replicate 19 0] := by
    rw [hviewB, List.map_cons, List.map_nil,
      show (renderCard randB 0 sparkCoin).pathCoords =
        buildSparklinePath (buildSparklinePoints (optNum sparkCoin.change) randB (20 * 0))
        from rfl,
      hptsB, path_snd_B]
  rw [e1, e2] at h2
  injection h2 with h3 _
  have h4 : (List.replicate 20 (32 : ℚ)).getD 1 0 =
      ((32 : ℚ) :: List.replicate 19 0).getD 1 0 :=
    congrArg (fun l : List ℚ => l.getD 1 0) h3
  have h5 : (List.replicate 20 (32 : ℚ)).getD 1 0 = 32 := rfl
  have h6 : ((32 : ℚ) :: List.replicate 19 0).getD 1 0 = 0 := rfl
  rw [h5, h6] at h4
  exact absurd h4 (by norm_num)

/-- C9 (amended): rendering is deterministic up to the decorative sparkline
jitter — two renders with the same unchanged state produce identical output
once the freshly drawn jitter is erased (and identical pagination state) —
and applying a render to the DOM replaces the previous content and its
listeners wholesale: the resulting DOM, listeners included, depends only on
the render output, never on what was previously mounted, so repeated
rendering does not stack listeners. -/
theorem renderDashboard_idempotent_amended :
    (∀ (st : AppState) (pag : Pagination) (r₁ r₂ : ℕ → ℚ),
      eraseSpark (renderDashboardView st pag r₁).1 =
        eraseSpark (renderDashboardView st pag r₂).1 ∧
      (renderDashboardView st pag r₁).2 = (renderDashboardView st pag r₂).2) ∧
    (∀ (dom₁ dom₂ : DashboardDom) (out : DashOut),
      applyRenderDashboard dom₁ out = applyRenderDashboard dom₂ out) := by
  have hempty : ∀ (st : AppState) (pag : Pagination) (rand : ℕ → ℚ),
      st.filteredCoins.isEmpty = true →
      renderDashboardView st pag rand =
        ({ cards := renderTopCards st rand, table := none }, pag) := by
    intro st pag rand he
    unfold renderDashboardView
    rw [he]
    rfl
  have hnonempty : ∀ (st : AppState) (pag : Pagination) (rand : ℕ → ℚ),
      st.filteredCoins.isEmpty = false →
      renderDashboardView st pag rand =
        ({ cards := renderTopCards st rand,
           table := some (renderDashboardTable st pag) },
         (renderClampStep st.totalCoins st.filteredCoins.length pag).pag) := by
    intro st pag rand he
    unfold renderDashboardView
    rw [he]
    rfl
  constructor
  · intro st pag r₁ r₂
    have hcards : (renderTopCards st r₁).map eraseCard =
        (renderTopCards st r₂).map eraseCard := by
      unfold renderTopCards
      rw [List.map_map, List.map_map]
      have hfun : (eraseCard ∘ fun p : ℕ × Coin => renderCard r₁ p.1 p.2) =
          (eraseCard ∘ fun p : ℕ × Coin => renderCard r₂ p.1 p.2) := by
        funext p
        rw [Function.comp_apply, Function.comp_apply, eraseCard_renderCard,
          eraseCard_renderCard]
      rw [hfun]
    cases he : st.filteredCoins.isEmpty with
    | true =>
      rw [hempty st pag r₁ he, hempty st pag r₂ he]
      exact ⟨congrArg (fun cs => ({ cards := cs, table := none } : DashOut)) hcards, rfl⟩
    | false =>
      rw [hnonempty st pag r₁ he, hnonempty st pag r₂ he]
      exact ⟨congrArg (fun cs =>
        ({ cards := cs, table := some (renderDashboardTable st pag) } : DashOut)) hcards,
        rfl⟩
  · intro dom₁ dom₂ out
    rfl

end CryptoScope
